import Mathlib

/-!
Shallow embedding of the treasure-search genetic program
(`src/core.rs`, with the grid scan of `src/main.rs`).

Modelling conventions:
* `u8` values are `Nat` (all operations below stay under 256 when inputs do;
  the one wrap point, `cyclic_increment_u8`, is guarded explicitly as in the
  source).
* `isize` player coordinates are `Int`.
* `f64` fitness arithmetic is modelled over `ℚ`; the literal `0.005` is the
  exact rational `5 / 1000`.  Every concrete value appearing in the theorems
  below (`0.0`, `1.0`, small ratios of small integers) is exactly
  representable in `f64`, and all comparisons used are exact there.
* The grid `Vec<Vec<u8>>` is `List (List Nat)`; the `String` step trace is
  `List Char`.
* The PCG random stream is abstracted: each Bernoulli draw the code makes is
  a `Bool` supplied by an explicit stream parameter, and `gen_range` draws
  are explicit numeric parameters.  `rng.gen_bool 0.0` is the constant
  `false` draw.
-/

namespace TreasureSearch

/-- `AREA_TILE_PLAYER` (core.rs line 4). -/
def AREA_TILE_PLAYER : Nat := 1

/-- `AREA_TILE_TREASURE` (core.rs line 5). -/
def AREA_TILE_TREASURE : Nat := 2

/-- `AREA_TILE_NOTHING` (core.rs line 6). -/
def AREA_TILE_NOTHING : Nat := 0

/-- `cyclic_increment_u8` (core.rs lines 196-202): `u8::MAX = 255` maps to
`0`, otherwise `n + 1`. -/
def cyclic_increment_u8 (n : Nat) : Nat :=
  if n = 255 then 0 else n + 1

/-- `cyclic_decrement_u8` (core.rs lines 204-210): the source returns `0`
when `n == u8::MIN` (i.e. `n = 0`), otherwise `n - 1`. -/
def cyclic_decrement_u8 (n : Nat) : Nat :=
  if n = 0 then 0 else n - 1

/-- `calculate_fitness` (core.rs lines 176-183), `f64` modelled over `ℚ`:
`found / all - steps * 0.005`, set to `0` when negative. -/
def calculate_fitness (steps : Nat) (found_treasures : Nat) (all_treasures : Nat) : ℚ :=
  let fitness : ℚ := (found_treasures : ℚ) / (all_treasures : ℚ)
  let fitness : ℚ := fitness - (steps : ℚ) * (5 / 1000)
  if fitness < 0 then 0 else fitness

/-- Helper for `build_game_area`: `game_area[y][x] = v` on a list grid. -/
def setTile (g : List (List Nat)) (y x v : Nat) : List (List Nat) :=
  g.set y ((g.getD y []).set x v)

/-- `build_game_area` (core.rs lines 185-194): 7×7 grid of
`AREA_TILE_NOTHING`, five treasure tiles, one player tile. -/
def build_game_area : List (List Nat) :=
  let g := List.replicate 7 (List.replicate 7 AREA_TILE_NOTHING)
  let g := setTile g 1 4 AREA_TILE_TREASURE
  let g := setTile g 2 2 AREA_TILE_TREASURE
  let g := setTile g 3 6 AREA_TILE_TREASURE
  let g := setTile g 4 1 AREA_TILE_TREASURE
  let g := setTile g 5 4 AREA_TILE_TREASURE
  let g := setTile g 6 3 AREA_TILE_PLAYER
  g

/-- Number of tiles of a given kind in a grid, as the scan in `main.rs`
lines 53-67 counts them (the grid is rectangular, so a row-wise count
matches the column-indexed scan). -/
def countTiles (g : List (List Nat)) (v : Nat) : Nat :=
  (g.map (fun row => row.countP (fun t => t == v))).sum

/-- `Chromosome` (core.rs lines 17-23): the genome plus its latest
evaluation results; `f64` fitness over `ℚ`, the `String` trace as
`List Char`. -/
structure Chromosome where
  genes : List Nat
  found_treasures : Nat
  fitness : ℚ
  iterations : Nat
  steps : List Char
deriving Repr, DecidableEq

/-- The inner bit loop of `reproduce` (core.rs lines 120-135) for one gene:
`mask` starts at 128 and shifts right through the 8 bit positions; at step
`j` the draw `c j` (`rng.gen_bool(0.5)`) picks whether parent 1's or
parent 2's masked bit is ORed in, then the draw `m j`
(`rng.gen_bool(mutation_probability)`) decides whether the mask is XORed
in.  `rng.gen_bool(0.0)` is the constant-`false` draw, so mutation
probability `0.0` instantiates `m` with `fun _ => false`. -/
def crossoverByte (b1 b2 : Nat) (c m : Nat → Bool) : Nat :=
  (List.range 8).foldl
    (fun number j =>
      let mask := 128 >>> j
      let number := if c j then number ||| (b1 &&& mask) else number ||| (b2 &&& mask)
      if m j then number ^^^ mask else number)
    0

/-- `reproduce` (core.rs lines 117-139): for each of the 64 gene positions
build the child byte bit by bit; `c i j` / `m i j` are the crossover and
mutation Bernoulli draws consumed for byte `i`, bit position `j`. -/
def reproduce (parent1 parent2 : Chromosome) (c m : Nat → Nat → Bool) : List Nat :=
  (List.range 64).map (fun i =>
    crossoverByte (parent1.genes.getD i 0) (parent2.genes.getD i 0) (c i) (m i))

/-- The for-loop walk of one draw of `selection_roulette` (core.rs lines
147-153): accumulate fitness in `curr_fitness` and return the first
chromosome whose running sum strictly exceeds `r`; `none` when the walk
completes without exceeding `r`. -/
def rouletteWalk : List Chromosome → ℚ → ℚ → Option Chromosome
  | [], _, _ => none
  | ch :: rest, curr_fitness, r =>
    if curr_fitness + ch.fitness > r then some ch
    else rouletteWalk rest (curr_fitness + ch.fitness) r

/-- One draw of `selection_roulette` (core.rs lines 144-157): walk with
accumulator `0` against the drawn `r`; when the walk selects nobody, fall
back to `chromosomes.last()`.  The Rust `unwrap` panics exactly when the
population is empty (`none` here). -/
def selectionRouletteOne (chromosomes : List Chromosome) (r : ℚ) : Option Chromosome :=
  match rouletteWalk chromosomes 0 r with
  | some ch => some ch
  | none => chromosomes.getLast?

/-- `selection_roulette` (core.rs lines 141-160): two independent draws,
one selected parent each.  `r1`, `r2` are the two values the source draws
with `rng.gen_range(0f64..=total_fitness)`; `total_fitness` enters the
computation only through that draw range. -/
def selection_roulette (chromosomes : List Chromosome) (r1 r2 : ℚ) :
    Option Chromosome × Option Chromosome :=
  (selectionRouletteOne chromosomes r1, selectionRouletteOne chromosomes r2)

/-- Cumulative fitness of the first `k` chromosomes, for the spec-side
description of roulette selection. -/
def cumFitness (chromosomes : List Chromosome) (k : Nat) : ℚ :=
  ((chromosomes.take k).map Chromosome.fitness).sum

/-- Roulette selection as the spec words it (for comparison with
`selectionRouletteOne`): "select the first individual whose cumulative
fitness strictly exceeds `r`; if the walk completes without exceeding `r`,
fall back to selecting the last individual". -/
def specRouletteSelect (chromosomes : List Chromosome) (r : ℚ) : Option Chromosome :=
  match (List.range chromosomes.length).find?
      (fun i => decide (cumFitness chromosomes (i + 1) > r)) with
  | some i => chromosomes[i]?
  | none => chromosomes.getLast?

/-- State of the `while` loop of `run_virtual_machine` (core.rs lines
45-115).  `accesses` records every instruction-memory index the loop
touches (the fetch index, and the cell index read and written by
Increment/Decrement); it is bookkeeping for the safety claim and does not
influence execution. -/
structure VMState where
  gameArea : List (List Nat)
  memory : List Nat
  currInstrIndex : Nat
  iterations : Nat
  foundTreasures : Nat
  playerX : Int
  playerY : Int
  steps : List Char
  accesses : List Nat
deriving Repr, DecidableEq

/-- The `match data & 3` of the Move arm (core.rs lines 76-98): the new
`(player_x, player_y)` and the trace symbol pushed, per direction
(`0`=Up/`H`, `1`=Right/`P`, `2`=Down/`D`, `3`=Left/`L`; `data &&& 3 < 4`,
so the source's `_ => {}` arm is unreachable). -/
def moveUpdate (dir : Nat) (px py : Int) (st : List Char) : Int × Int × List Char :=
  if dir = 0 then (px, py - 1, st ++ ['H'])
  else if dir = 1 then (px + 1, py, st ++ ['P'])
  else if dir = 2 then (px, py + 1, st ++ ['D'])
  else (px - 1, py, st ++ ['L'])

/-- One pass of the `while` body of `run_virtual_machine` (core.rs lines
54-113).  The returned `Bool` is `true` exactly when the body ran the
out-of-bounds `break` (core.rs line 100), which leaves the loop before
`iterations += 1`.  In every other branch the pass ends with
`iterations += 1` and, unless the instruction was a Jump, with
`curr_instr_index += 1` (folded into each branch's result here). -/
def vmStep (rows columns : Nat) (s : VMState) : VMState × Bool :=
  let instruction := s.memory.getD s.currInstrIndex 0
  let operation := instruction &&& 0xC0
  let data := instruction &&& 0x3F
  let acc := s.accesses ++ [s.currInstrIndex]
  if operation = 0 then
    -- Increment
    ({ s with
        memory := s.memory.set data (cyclic_increment_u8 (s.memory.getD data 0)),
        accesses := acc ++ [data],
        iterations := s.iterations + 1,
        currInstrIndex := s.currInstrIndex + 1 }, false)
  else if operation = 64 then
    -- Decrement
    ({ s with
        memory := s.memory.set data (cyclic_decrement_u8 (s.memory.getD data 0)),
        accesses := acc ++ [data],
        iterations := s.iterations + 1,
        currInstrIndex := s.currInstrIndex + 1 }, false)
  else if operation = 128 then
    -- Jump: sets the instruction pointer; no auto-advance afterwards
    ({ s with
        currInstrIndex := data,
        iterations := s.iterations + 1,
        accesses := acc }, false)
  else if operation = 192 then
    -- Move
    let m := moveUpdate (data &&& 3) s.playerX s.playerY s.steps
    if ¬ (0 ≤ m.1 ∧ m.1 < (columns : Int) ∧ 0 ≤ m.2.1 ∧ m.2.1 < (rows : Int)) then
      ({ s with playerX := m.1, playerY := m.2.1, steps := m.2.2, accesses := acc }, true)
    else if (s.gameArea.getD m.2.1.toNat []).getD m.1.toNat 0 = AREA_TILE_TREASURE then
      ({ s with
          gameArea := s.gameArea.set m.2.1.toNat
            ((s.gameArea.getD m.2.1.toNat []).set m.1.toNat 0),
          foundTreasures := s.foundTreasures + 1,
          playerX := m.1, playerY := m.2.1, steps := m.2.2, accesses := acc,
          iterations := s.iterations + 1,
          currInstrIndex := s.currInstrIndex + 1 }, false)
    else
      ({ s with
          playerX := m.1, playerY := m.2.1, steps := m.2.2, accesses := acc,
          iterations := s.iterations + 1,
          currInstrIndex := s.currInstrIndex + 1 }, false)
  else
    -- unreachable: `instruction &&& 0xC0` is one of 0, 64, 128, 192
    ({ s with
        iterations := s.iterations + 1,
        currInstrIndex := s.currInstrIndex + 1,
        accesses := acc }, false)

/-- The `while` loop of `run_virtual_machine` (core.rs line 54), driven by
fuel.  Every pass that does not `break` increments `iterations` by exactly
one and the guard requires `iterations < 500`, so starting from
`iterations = 0` a fuel of `500` is never exhausted while the guard still
holds: the fuelled recursion computes exactly what the source's `while`
loop computes. -/
def vmLoop (rows columns treasures : Nat) : Nat → VMState → VMState
  | 0, s => s
  | fuel + 1, s =>
    if s.iterations < 500 ∧ s.currInstrIndex < 64 ∧ s.foundTreasures < treasures then
      match vmStep rows columns s with
      | (s', true) => s'
      | (s', false) => vmLoop rows columns treasures fuel s'
    else s

/-- `run_virtual_machine` (core.rs lines 45-115).  `steps` is the initial
content of the `&mut String` out-parameter; the Rust return value is the
pair `(iterations, foundTreasures)` of the returned state, and the final
`steps` field is what the out-parameter holds afterwards.  As in the
source, `columns` is the length of row 0 (`original_game_area[0]`; in Rust
that indexing panics when the grid has no rows, so theorems over arbitrary
grids carry a nonemptiness hypothesis). -/
def run_virtual_machine (instructions : List Nat) (original_game_area : List (List Nat))
    (steps : List Char) (player_x player_y : Int) (treasures : Nat) : VMState :=
  let rows := original_game_area.length
  let columns := (original_game_area.headD []).length
  vmLoop rows columns treasures 500
    { gameArea := original_game_area
      memory := instructions
      currInstrIndex := 0
      iterations := 0
      foundTreasures := 0
      playerX := player_x
      playerY := player_y
      steps := steps
      accesses := [] }

end TreasureSearch

namespace TreasureSearch

/-- C1: at the failing input `n = 0`, the code's `cyclic_decrement_u8`
returns `0`, not the `255` that cyclic wraparound (and the spec's
`decrement(0) == 255`) requires. -/
theorem cyclic_decrement_u8_zero_bug :
    cyclic_decrement_u8 0 = 0 ∧ cyclic_decrement_u8 0 ≠ 255 := by
  decide

/-- C3 counterexample: at `stepCount = 0`, `treasuresFound = 5`,
`totalTreasures = 5` (so `totalTreasures > 0` and
`treasuresFound ≤ totalTreasures`), `calculate_fitness` returns exactly
`1`, which is not strictly less than `1`; the claimed interval `[0, 1)` is
violated. -/
theorem calculate_fitness_not_lt_one :
    0 < 5 ∧ 5 ≤ 5 ∧ calculate_fitness 0 5 5 = 1 ∧ ¬ calculate_fitness 0 5 5 < 1 := by
  refine ⟨by decide, by decide, ?_, ?_⟩ <;> norm_num [calculate_fitness]

/-- C3 (amended): for `totalTreasures > 0` and
`treasuresFound ≤ totalTreasures`, `calculate_fitness` lands in the closed
interval `[0, 1]`, and is strictly below `1` whenever `stepCount ≥ 1` or
`treasuresFound < totalTreasures` (it reaches `1` only at
`stepCount = 0`, `treasuresFound = totalTreasures`). -/
theorem calculate_fitness_range (s t T : Nat) (hT : 0 < T) (ht : t ≤ T) :
    0 ≤ calculate_fitness s t T ∧ calculate_fitness s t T ≤ 1 ∧
      (1 ≤ s ∨ t < T → calculate_fitness s t T < 1) := by
  have hT' : (0 : ℚ) < (T : ℚ) := by exact_mod_cast hT
  have ht' : (t : ℚ) ≤ (T : ℚ) := by exact_mod_cast ht
  have hdiv : (t : ℚ) / (T : ℚ) ≤ 1 := (div_le_one hT').mpr ht'
  have hs0 : (0 : ℚ) ≤ (s : ℚ) * (5 / 1000) := by positivity
  simp only [calculate_fitness]
  split
  · refine ⟨le_refl 0, by norm_num, fun _ => by norm_num⟩
  · rename_i hneg
    push_neg at hneg
    refine ⟨hneg, by linarith, ?_⟩
    rintro (hs | htT)
    · have hs' : (1 : ℚ) ≤ (s : ℚ) := by exact_mod_cast hs
      have : (5 / 1000 : ℚ) ≤ (s : ℚ) * (5 / 1000) := by nlinarith
      linarith
    · have htT' : (t : ℚ) < (T : ℚ) := by exact_mod_cast htT
      have : (t : ℚ) / (T : ℚ) < 1 := (div_lt_one hT').mpr htT'
      linarith

/-- C3 amended-claim witness at `stepCount = 3`, `treasuresFound = 2`,
`totalTreasures = 5`. -/
theorem calculate_fitness_range_witness :
    0 ≤ calculate_fitness 3 2 5 ∧ calculate_fitness 3 2 5 ≤ 1 ∧
      (1 ≤ 3 ∨ 2 < 5 → calculate_fitness 3 2 5 < 1) :=
  calculate_fitness_range 3 2 5 (by decide) (by decide)

/-- C5: for `totalTreasures > 0`, `calculate_fitness` is exactly
`treasuresFound / totalTreasures - stepCount * 0.005` clamped below at `0`;
it returns `0` whenever `treasuresFound = 0`, in particular whenever
additionally `stepCount ≥ 200`. -/
theorem calculate_fitness_formula (s t T : Nat) (hT : 0 < T) :
    calculate_fitness s t T = max ((t : ℚ) / (T : ℚ) - (s : ℚ) * (5 / 1000)) 0 ∧
      (t = 0 → calculate_fitness s t T = 0) ∧
      (t = 0 ∧ 200 ≤ s → calculate_fitness s t T = 0) := by
  have hmax : calculate_fitness s t T
      = max ((t : ℚ) / (T : ℚ) - (s : ℚ) * (5 / 1000)) 0 := by
    simp only [calculate_fitness]
    split
    · rename_i hneg
      exact (max_eq_right (le_of_lt hneg)).symm
    · rename_i hneg
      push_neg at hneg
      exact (max_eq_left hneg).symm
  have hzero : t = 0 → calculate_fitness s t T = 0 := by
    intro h0
    subst h0
    rw [hmax]
    have hs0 : (0 : ℚ) ≤ (s : ℚ) * (5 / 1000) := by positivity
    have : ((0 : Nat) : ℚ) / (T : ℚ) - (s : ℚ) * (5 / 1000) ≤ 0 := by
      simp only [Nat.cast_zero, zero_div]
      linarith
    exact max_eq_right this
  exact ⟨hmax, hzero, fun h => hzero h.1⟩

/-- C5 witness at `stepCount = 200`, `treasuresFound = 0`,
`totalTreasures = 5`. -/
theorem calculate_fitness_formula_witness :
    calculate_fitness 200 0 5 = max ((0 : ℚ) / (5 : ℚ) - (200 : ℚ) * (5 / 1000)) 0 ∧
      ((0 : Nat) = 0 → calculate_fitness 200 0 5 = 0) ∧
      ((0 : Nat) = 0 ∧ 200 ≤ 200 → calculate_fitness 200 0 5 = 0) :=
  calculate_fitness_formula 200 0 5 (by decide)

/-- Each loop pass increases `iterations` by at most one (by exactly one
unless it is the out-of-bounds `break` pass, which leaves it unchanged). -/
lemma vmStep_iterations_le (rows columns : Nat) (s : VMState) :
    (vmStep rows columns s).fst.iterations ≤ s.iterations + 1 := by
  simp only [vmStep]
  repeat' split <;> (try simp)

/-- A loop pass appends to the access log exactly the fetch index, and for
Increment/Decrement also the 6-bit operand `instruction &&& 0x3F`. -/
lemma vmStep_accesses_sub (rows columns : Nat) (s : VMState) :
    (vmStep rows columns s).fst.accesses = s.accesses ++ [s.currInstrIndex] ∨
      (vmStep rows columns s).fst.accesses
        = s.accesses ++ [s.currInstrIndex] ++ [s.memory.getD s.currInstrIndex 0 &&& 0x3F] := by
  simp only [vmStep]
  repeat' split <;> (try simp)

/-- A loop pass never changes the size of the instruction memory
(Increment/Decrement write with `List.set`). -/
lemma vmStep_memory_length (rows columns : Nat) (s : VMState) :
    (vmStep rows columns s).fst.memory.length = s.memory.length := by
  simp only [vmStep]
  repeat' split <;> (try simp)

/-- Loop invariant: `iterations` stays `≤ 500` (the guard admits a pass
only below 500 and a pass adds at most one), every logged memory access
stays below 64 (the guard bounds the fetch index, masking bounds the
operand), and the instruction memory keeps its length. -/
lemma vmLoop_safety (rows columns treasures : Nat) :
    ∀ (fuel : Nat) (s : VMState), s.iterations ≤ 500 → (∀ a ∈ s.accesses, a < 64) →
      (vmLoop rows columns treasures fuel s).iterations ≤ 500 ∧
        (∀ a ∈ (vmLoop rows columns treasures fuel s).accesses, a < 64) ∧
        (vmLoop rows columns treasures fuel s).memory.length = s.memory.length := by
  intro fuel
  induction fuel with
  | zero => intro s h1 h2; exact ⟨h1, h2, rfl⟩
  | succ n ih =>
    intro s h1 h2
    rw [vmLoop]
    split
    · rename_i hguard
      have hlt : s.iterations < 500 := hguard.1
      have hidx : s.currInstrIndex < 64 := hguard.2.1
      have hiter' := vmStep_iterations_le rows columns s
      have hacc' : ∀ a ∈ (vmStep rows columns s).fst.accesses, a < 64 := by
        intro a ha
        rcases vmStep_accesses_sub rows columns s with h | h <;> rw [h] at ha <;>
          simp only [List.mem_append, List.mem_singleton] at ha
        · rcases ha with ha | ha
          · exact h2 a ha
          · omega
        · rcases ha with (ha | ha) | ha
          · exact h2 a ha
          · omega
          · have : a ≤ 0x3F := ha ▸ Nat.and_le_right
            omega
      have hmem' := vmStep_memory_length rows columns s
      split
      · rename_i s' heq
        rw [heq] at hiter' hacc' hmem'
        exact ⟨by simp at hiter'; omega, by simpa using hacc', by simpa using hmem'⟩
      · rename_i s' heq
        rw [heq] at hiter' hacc' hmem'
        have h := ih s' (by simp at hiter'; omega) (by simpa using hacc')
        exact ⟨h.1, h.2.1, h.2.2.trans (by simpa using hmem')⟩
    · exact ⟨h1, h2, rfl⟩

/-- C4: every run does at most 500 loop iterations, every logged
instruction-memory access (each fetch, and each Increment/Decrement target)
lands below index 64, and the 64-cell instruction memory keeps length 64,
so no access past index 63 ever occurs. -/
theorem run_virtual_machine_safety (instructions : List Nat) (g : List (List Nat))
    (steps : List Char) (x y : Int) (treasures : Nat)
    (hlen : instructions.length = 64) :
    (run_virtual_machine instructions g steps x y treasures).iterations ≤ 500 ∧
      (∀ a ∈ (run_virtual_machine instructions g steps x y treasures).accesses, a < 64) ∧
      (run_virtual_machine instructions g steps x y treasures).memory.length = 64 := by
  have h := vmLoop_safety g.length (g.headD []).length treasures 500
    { gameArea := g, memory := instructions, currInstrIndex := 0, iterations := 0,
      foundTreasures := 0, playerX := x, playerY := y, steps := steps, accesses := [] }
    (by norm_num) (by simp)
  exact ⟨h.1, h.2.1, h.2.2.trans hlen⟩

/-- C4 witness: the safety bound at the all-zero 64-byte program on the
built grid. -/
theorem run_virtual_machine_safety_witness :
    (run_virtual_machine (List.replicate 64 0) build_game_area [] 3 6 5).iterations ≤ 500 ∧
      (∀ a ∈ (run_virtual_machine (List.replicate 64 0) build_game_area [] 3 6 5).accesses,
        a < 64) ∧
      (run_virtual_machine (List.replicate 64 0) build_game_area [] 3 6 5).memory.length = 64 :=
  run_virtual_machine_safety (List.replicate 64 0) build_game_area [] 3 6 5 (by decide)

/-- When the fetched byte is `0xC0` (Move Up) and the player is at row 0,
the pass pushes `'H'`, moves to row `-1`, fails the bounds check and
`break`s: `iterations` is not incremented. -/
lemma vmStep_out_of_top (rows columns : Nat) (s : VMState)
    (hfetch : s.memory.getD s.currInstrIndex 0 = 192) (hy : s.playerY = 0) :
    vmStep rows columns s =
      ({ s with accesses := s.accesses ++ [s.currInstrIndex],
                steps := s.steps ++ ['H'],
                playerY := s.playerY - 1 }, true) := by
  simp only [vmStep, moveUpdate, hfetch, hy,
    show (192 &&& 0xC0 : Nat) = 192 from rfl,
    show (192 &&& 0x3F : Nat) = 0 from rfl,
    show (0 &&& 3 : Nat) = 0 from rfl]
  norm_num

/-- C2 counterexample: the program whose first byte is `0xC0` run from row
0 of the built grid halts with `iterations = 0`, not the claimed `1` (the
`break` on the failed bounds check skips `iterations += 1`). -/
theorem run_vm_move_up_row0_counterexample :
    (run_virtual_machine (192 :: List.replicate 63 0) build_game_area [] 3 0 5).iterations
        ≠ 1 ∧
      (run_virtual_machine (192 :: List.replicate 63 0) build_game_area [] 3 0 5).iterations
        = 0 ∧
      (run_virtual_machine (192 :: List.replicate 63 0) build_game_area [] 3 0 5).foundTreasures
        = 0 := by
  decide

/-- C2 (amended): when a Move takes the player outside the grid,
`run_virtual_machine` halts immediately but the halting step does NOT
count toward the iteration total; a program whose first byte is `0xC0`
(Move Up) started at row 0 returns `iterations = 0` and
`treasuresFound = 0`, with `'H'` appended to the trace. -/
theorem run_vm_out_of_bounds_step_not_counted (instructions : List Nat)
    (g : List (List Nat)) (steps : List Char) (x : Int) (treasures : Nat)
    (h0 : instructions.getD 0 0 = 192) (ht : 0 < treasures) :
    (run_virtual_machine instructions g steps x 0 treasures).iterations = 0 ∧
      (run_virtual_machine instructions g steps x 0 treasures).foundTreasures = 0 ∧
      (run_virtual_machine instructions g steps x 0 treasures).steps = steps ++ ['H'] := by
  simp only [run_virtual_machine]
  rw [show (500 : Nat) = 499 + 1 from rfl]
  rw [vmLoop]
  rw [if_pos
    (show (0 : Nat) < 500 ∧ (0 : Nat) < 64 ∧ 0 < treasures from
      ⟨by norm_num, by norm_num, ht⟩)]
  rw [vmStep_out_of_top _ _ _ h0 rfl]
  exact ⟨rfl, rfl, rfl⟩

/-- C2 amended-claim witness: the `0xC0`-first program from row 0, column
5, with a nonempty prior trace. -/
theorem run_vm_out_of_bounds_step_not_counted_witness :
    (run_virtual_machine (192 :: List.replicate 63 7) build_game_area ['Q'] 5 0 5).iterations
        = 0 ∧
      (run_virtual_machine (192 :: List.replicate 63 7) build_game_area ['Q'] 5 0 5).foundTreasures
        = 0 ∧
      (run_virtual_machine (192 :: List.replicate 63 7) build_game_area ['Q'] 5 0 5).steps
        = ['Q'] ++ ['H'] :=
  run_vm_out_of_bounds_step_not_counted (192 :: List.replicate 63 7) build_game_area
    ['Q'] 5 5 (by decide) (by decide)

/-- C8: the all-zero 64-byte program, run from the scanned player start
`(x, y) = (3, 6)` on the built grid with its scanned treasure total, does
64 iterations (each an Increment of cell 0), finds no treasure, emits no
move symbol, and walks the pointer off the end at index 64. -/
theorem run_vm_all_zero_program :
    countTiles build_game_area AREA_TILE_TREASURE = 5 ∧
      (build_game_area.getD 6 []).getD 3 0 = AREA_TILE_PLAYER ∧
      (run_virtual_machine (List.replicate 64 0) build_game_area [] 3 6
          (countTiles build_game_area AREA_TILE_TREASURE)).iterations = 64 ∧
      (run_virtual_machine (List.replicate 64 0) build_game_area [] 3 6
          (countTiles build_game_area AREA_TILE_TREASURE)).foundTreasures = 0 ∧
      (run_virtual_machine (List.replicate 64 0) build_game_area [] 3 6
          (countTiles build_game_area AREA_TILE_TREASURE)).steps = [] ∧
      (run_virtual_machine (List.replicate 64 0) build_game_area [] 3 6
          (countTiles build_game_area AREA_TILE_TREASURE)).currInstrIndex = 64 := by
  decide

/-- C10: with a treasure goal of 0 the loop guard
`found_treasures < treasures` fails at once: zero iterations, zero
treasures found, step trace unchanged.  (The grid must be nonempty: the
source indexes `original_game_area[0]` before the loop and panics on an
empty grid.) -/
theorem run_vm_zero_treasure_goal (instructions : List Nat) (g : List (List Nat))
    (steps : List Char) (x y : Int) (hg : 0 < g.length) :
    (run_virtual_machine instructions g steps x y 0).iterations = 0 ∧
      (run_virtual_machine instructions g steps x y 0).foundTreasures = 0 ∧
      (run_virtual_machine instructions g steps x y 0).steps = steps := by
  simp only [run_virtual_machine]
  rw [show (500 : Nat) = 499 + 1 from rfl]
  simp [vmLoop]

/-- C10 witness: a goal of 0 on the built grid from the player start. -/
theorem run_vm_zero_treasure_goal_witness :
    (run_virtual_machine (List.replicate 64 3) build_game_area ['D'] 3 6 0).iterations = 0 ∧
      (run_virtual_machine (List.replicate 64 3) build_game_area ['D'] 3 6 0).foundTreasures
        = 0 ∧
      (run_virtual_machine (List.replicate 64 3) build_game_area ['D'] 3 6 0).steps = ['D'] :=
  run_vm_zero_treasure_goal (List.replicate 64 3) build_game_area ['D'] 3 6 (by decide)

/-- C9: `build_game_area` is a 7×7 grid with exactly 5 treasure tiles,
exactly 1 player-start tile, and all remaining 43 tiles empty; the treasure
count obtained by scanning it is 5. -/
theorem build_game_area_layout :
    build_game_area.length = 7 ∧
      (∀ row ∈ build_game_area, row.length = 7) ∧
      countTiles build_game_area AREA_TILE_TREASURE = 5 ∧
      countTiles build_game_area AREA_TILE_PLAYER = 1 ∧
      countTiles build_game_area AREA_TILE_NOTHING = 43 := by
  decide

/-- One crossover step ORs in the chosen parent's bit under the mask. -/
lemma step_testBit (x b1 b2 mask : Nat) (cj : Bool) (k : Nat) :
    (if cj then x ||| (b1 &&& mask) else x ||| (b2 &&& mask)).testBit k
      = (x.testBit k || ((if cj then b1 else b2).testBit k && mask.testBit k)) := by
  cases cj <;> simp [Nat.testBit_lor, Nat.testBit_land]

/-- With no mutation, each bit of the crossover byte is one parent's bit at
that position: bit `k < 8` comes from the parent chosen at step `7 - k`,
and bits `k ≥ 8` are 0 on both sides since the parents' bytes are below
256. -/
lemma crossoverByte_testBit (b1 b2 : Nat) (c : Nat → Bool) (k : Nat)
    (h1 : b1 < 256) (h2 : b2 < 256) :
    (crossoverByte b1 b2 c (fun _ => false)).testBit k = b1.testBit k ∨
      (crossoverByte b1 b2 c (fun _ => false)).testBit k = b2.testBit k := by
  by_cases hk : k < 8
  · simp only [crossoverByte, List.range_succ, List.range_zero, List.nil_append,
      List.foldl_append, List.foldl_cons, List.foldl_nil, Bool.false_eq_true, if_false]
    interval_cases k <;>
      simp only [step_testBit, Nat.zero_testBit, Bool.false_or,
        show Nat.testBit (128 >>> 0) 0 = false from rfl,
        show Nat.testBit (128 >>> 1) 0 = false from rfl,
        show Nat.testBit (128 >>> 2) 0 = false from rfl,
        show Nat.testBit (128 >>> 3) 0 = false from rfl,
        show Nat.testBit (128 >>> 4) 0 = false from rfl,
        show Nat.testBit (128 >>> 5) 0 = false from rfl,
        show Nat.testBit (128 >>> 6) 0 = false from rfl,
        show Nat.testBit (128 >>> 7) 0 = true from rfl,
        show Nat.testBit (128 >>> 0) 1 = false from rfl,
        show Nat.testBit (128 >>> 1) 1 = false from rfl,
        show Nat.testBit (128 >>> 2) 1 = false from rfl,
        show Nat.testBit (128 >>> 3) 1 = false from rfl,
        show Nat.testBit (128 >>> 4) 1 = false from rfl,
        show Nat.testBit (128 >>> 5) 1 = false from rfl,
        show Nat.testBit (128 >>> 6) 1 = true from rfl,
        show Nat.testBit (128 >>> 7) 1 = false from rfl,
        show Nat.testBit (128 >>> 0) 2 = false from rfl,
        show Nat.testBit (128 >>> 1) 2 = false from rfl,
        show Nat.testBit (128 >>> 2) 2 = false from rfl,
        show Nat.testBit (128 >>> 3) 2 = false from rfl,
        show Nat.testBit (128 >>> 4) 2 = false from rfl,
        show Nat.testBit (128 >>> 5) 2 = true from rfl,
        show Nat.testBit (128 >>> 6) 2 = false from rfl,
        show Nat.testBit (128 >>> 7) 2 = false from rfl,
        show Nat.testBit (128 >>> 0) 3 = false from rfl,
        show Nat.testBit (128 >>> 1) 3 = false from rfl,
        show Nat.testBit (128 >>> 2) 3 = false from rfl,
        show Nat.testBit (128 >>> 3) 3 = false from rfl,
        show Nat.testBit (128 >>> 4) 3 = true from rfl,
        show Nat.testBit (128 >>> 5) 3 = false from rfl,
        show Nat.testBit (128 >>> 6) 3 = false from rfl,
        show Nat.testBit (128 >>> 7) 3 = false from rfl,
        show Nat.testBit (128 >>> 0) 4 = false from rfl,
        show Nat.testBit (128 >>> 1) 4 = false from rfl,
        show Nat.testBit (128 >>> 2) 4 = false from rfl,
        show Nat.testBit (128 >>> 3) 4 = true from rfl,
        show Nat.testBit (128 >>> 4) 4 = false from rfl,
        show Nat.testBit (128 >>> 5) 4 = false from rfl,
        show Nat.testBit (128 >>> 6) 4 = false from rfl,
        show Nat.testBit (128 >>> 7) 4 = false from rfl,
        show Nat.testBit (128 >>> 0) 5 = false from rfl,
        show Nat.testBit (128 >>> 1) 5 = false from rfl,
        show Nat.testBit (128 >>> 2) 5 = true from rfl,
        show Nat.testBit (128 >>> 3) 5 = false from rfl,
        show Nat.testBit (128 >>> 4) 5 = false from rfl,
        show Nat.testBit (128 >>> 5) 5 = false from rfl,
        show Nat.testBit (128 >>> 6) 5 = false from rfl,
        show Nat.testBit (128 >>> 7) 5 = false from rfl,
        show Nat.testBit (128 >>> 0) 6 = false from rfl,
        show Nat.testBit (128 >>> 1) 6 = true from rfl,
        show Nat.testBit (128 >>> 2) 6 = false from rfl,
        show Nat.testBit (128 >>> 3) 6 = false from rfl,
        show Nat.testBit (128 >>> 4) 6 = false from rfl,
        show Nat.testBit (128 >>> 5) 6 = false from rfl,
        show Nat.testBit (128 >>> 6) 6 = false from rfl,
        show Nat.testBit (128 >>> 7) 6 = false from rfl,
        show Nat.testBit (128 >>> 0) 7 = true from rfl,
        show Nat.testBit (128 >>> 1) 7 = false from rfl,
        show Nat.testBit (128 >>> 2) 7 = false from rfl,
        show Nat.testBit (128 >>> 3) 7 = false from rfl,
        show Nat.testBit (128 >>> 4) 7 = false from rfl,
        show Nat.testBit (128 >>> 5) 7 = false from rfl,
        show Nat.testBit (128 >>> 6) 7 = false from rfl,
        show Nat.testBit (128 >>> 7) 7 = false from rfl,
        Bool.and_false, Bool.and_true, Bool.or_false, Bool.false_or] <;>
      split <;> simp
  · push_neg at hk
    have hpow : (256 : Nat) ≤ 2 ^ k := by
      calc (256 : Nat) = 2 ^ 8 := rfl
        _ ≤ 2 ^ k := Nat.pow_le_pow_right (by norm_num) hk
    have hmask : ∀ m : Nat, m < 256 → m.testBit k = false := fun m hm =>
      Nat.testBit_eq_false_of_lt (lt_of_lt_of_le hm hpow)
    left
    rw [hmask b1 h1]
    simp only [crossoverByte, List.range_succ, List.range_zero, List.nil_append,
      List.foldl_append, List.foldl_cons, List.foldl_nil, Bool.false_eq_true, if_false,
      step_testBit, Nat.zero_testBit, Bool.false_or,
      hmask (128 >>> 0) (by decide), hmask (128 >>> 1) (by decide),
      hmask (128 >>> 2) (by decide), hmask (128 >>> 3) (by decide),
      hmask (128 >>> 4) (by decide), hmask (128 >>> 5) (by decide),
      hmask (128 >>> 6) (by decide), hmask (128 >>> 7) (by decide),
      Bool.and_false, Bool.or_false]

set_option maxRecDepth 8000 in
/-- With equal parents and no mutation, each crossover step ORs in the same
masked bit either way, so the byte is reassembled unchanged. -/
lemma crossoverByte_self (b : Nat) (hb : b < 256) (c : Nat → Bool) :
    crossoverByte b b c (fun _ => false) = b := by
  have hval : crossoverByte b b c (fun _ => false) =
      (((((((0 ||| (b &&& (128 >>> 0))) ||| (b &&& (128 >>> 1))) ||| (b &&& (128 >>> 2)))
        ||| (b &&& (128 >>> 3))) ||| (b &&& (128 >>> 4))) ||| (b &&& (128 >>> 5)))
        ||| (b &&& (128 >>> 6))) ||| (b &&& (128 >>> 7)) := by
    simp only [crossoverByte, List.range_succ, List.range_zero, List.nil_append,
      List.foldl_append, List.foldl_cons, List.foldl_nil, Bool.false_eq_true, if_false,
      ite_self]
  rw [hval]
  exact (show ∀ b' < 256,
      (((((((0 ||| (b' &&& (128 >>> 0))) ||| (b' &&& (128 >>> 1))) ||| (b' &&& (128 >>> 2)))
        ||| (b' &&& (128 >>> 3))) ||| (b' &&& (128 >>> 4))) ||| (b' &&& (128 >>> 5)))
        ||| (b' &&& (128 >>> 6))) ||| (b' &&& (128 >>> 7)) = b' by decide) b hb

/-- `getD` with default 0 on a list of bytes below 256 stays below 256. -/
lemma getD_lt_256 (l : List Nat) (hl : ∀ b ∈ l, b < 256) (i : Nat) : l.getD i 0 < 256 := by
  by_cases hi : i < l.length
  · rw [List.getD_eq_getElem l 0 hi]
    exact hl _ (List.getElem_mem hi)
  · rw [List.getD_eq_default l 0 (le_of_not_lt hi)]
    norm_num

set_option maxRecDepth 4000 in
/-- C7: with mutation probability `0.0` (every `gen_bool(0.0)` draw is
`false`), `reproduce` yields 64 bytes, each bit of each output byte equals
the corresponding bit of parent 1 or of parent 2, and crossing a parent
with itself reproduces its instruction array exactly. -/
theorem reproduce_no_mutation (p1 p2 : Chromosome) (c : Nat → Nat → Bool)
    (h1len : p1.genes.length = 64) (h2len : p2.genes.length = 64)
    (h1 : ∀ b ∈ p1.genes, b < 256) (h2 : ∀ b ∈ p2.genes, b < 256) :
    (reproduce p1 p2 c (fun _ _ => false)).length = 64 ∧
      (∀ i, i < 64 → ∀ k,
        ((reproduce p1 p2 c (fun _ _ => false)).getD i 0).testBit k
            = (p1.genes.getD i 0).testBit k ∨
          ((reproduce p1 p2 c (fun _ _ => false)).getD i 0).testBit k
            = (p2.genes.getD i 0).testBit k) ∧
      reproduce p1 p1 c (fun _ _ => false) = p1.genes := by
  refine ⟨by simp [reproduce], ?_, ?_⟩
  · intro i hi k
    have hget : (reproduce p1 p2 c (fun _ _ => false)).getD i 0
        = crossoverByte (p1.genes.getD i 0) (p2.genes.getD i 0) (c i) (fun _ => false) := by
      simp [reproduce, List.getD_eq_getElem?_getD, List.getElem?_map, List.getElem?_range, hi]
    rw [hget]
    exact crossoverByte_testBit _ _ _ k (getD_lt_256 _ h1 i) (getD_lt_256 _ h2 i)
  · apply List.ext_getElem
    · simp [reproduce, h1len]
    · intro i hil hir
      have hi64 : i < 64 := by simpa [reproduce] using hil
      have : (reproduce p1 p1 c (fun _ _ => false))[i] =
          crossoverByte (p1.genes.getD i 0) (p1.genes.getD i 0) (c i) (fun _ => false) := by
        simp [reproduce]
      rw [this, crossoverByte_self _ (getD_lt_256 _ h1 i) (c i),
        List.getD_eq_getElem p1.genes 0 hir]

/-- C7 witness: parents with all bytes 5 resp. 170, an alternating
crossover stream. -/
theorem reproduce_no_mutation_witness :
    (reproduce (Chromosome.mk (List.replicate 64 5) 0 0 0 [])
        (Chromosome.mk (List.replicate 64 170) 0 0 0 [])
        (fun i j => decide ((i + j) % 2 = 0)) (fun _ _ => false)).length = 64 ∧
      (∀ i, i < 64 → ∀ k,
        ((reproduce (Chromosome.mk (List.replicate 64 5) 0 0 0 [])
            (Chromosome.mk (List.replicate 64 170) 0 0 0 [])
            (fun i j => decide ((i + j) % 2 = 0)) (fun _ _ => false)).getD i 0).testBit k
            = ((Chromosome.mk (List.replicate 64 5) 0 0 0 []).genes.getD i 0).testBit k ∨
          ((reproduce (Chromosome.mk (List.replicate 64 5) 0 0 0 [])
            (Chromosome.mk (List.replicate 64 170) 0 0 0 [])
            (fun i j => decide ((i + j) % 2 = 0)) (fun _ _ => false)).getD i 0).testBit k
            = ((Chromosome.mk (List.replicate 64 170) 0 0 0 []).genes.getD i 0).testBit k) ∧
      reproduce (Chromosome.mk (List.replicate 64 5) 0 0 0 [])
          (Chromosome.mk (List.replicate 64 5) 0 0 0 [])
          (fun i j => decide ((i + j) % 2 = 0)) (fun _ _ => false)
        = (Chromosome.mk (List.replicate 64 5) 0 0 0 []).genes :=
  reproduce_no_mutation (Chromosome.mk (List.replicate 64 5) 0 0 0 [])
    (Chromosome.mk (List.replicate 64 170) 0 0 0 [])
    (fun i j => decide ((i + j) % 2 = 0))
    (by decide) (by decide) (by decide) (by decide)

/-- Cumulative fitness over `k + 1` elements splits off the head. -/
lemma cumFitness_cons (ch : Chromosome) (rest : List Chromosome) (k : Nat) :
    cumFitness (ch :: rest) (k + 1) = ch.fitness + cumFitness rest k := by
  simp [cumFitness, List.take_succ_cons]

/-- The first cumulative sum is the head's fitness. -/
lemma cumFitness_one (ch : Chromosome) (rest : List Chromosome) :
    cumFitness (ch :: rest) (0 + 1) = ch.fitness := by
  rw [cumFitness_cons]
  simp [cumFitness]

/-- Walking with accumulator `acc` is walking from `0` against `r - acc`. -/
lemma rouletteWalk_shift (l : List Chromosome) :
    ∀ (acc r : ℚ), rouletteWalk l acc r = rouletteWalk l 0 (r - acc) := by
  induction l with
  | nil => intro acc r; rfl
  | cons ch rest ih =>
    intro acc r
    simp only [rouletteWalk]
    by_cases h : acc + ch.fitness > r
    · rw [if_pos h, if_pos (by linarith)]
    · rw [if_neg h, if_neg (by intro hc; apply h; linarith)]
      rw [ih (acc + ch.fitness) r, ih (0 + ch.fitness) (r - acc)]
      ring_nf

/-- Peeling the head off the spec-side selection when the head's fitness
does not exceed `r` and the tail is nonempty. -/
lemma specRouletteSelect_cons (ch : Chromosome) (rest : List Chromosome) (r : ℚ)
    (h : ¬ ch.fitness > r) (hne : rest ≠ []) :
    specRouletteSelect (ch :: rest) r = specRouletteSelect rest (r - ch.fitness) := by
  have hp0 : decide (cumFitness (ch :: rest) (0 + 1) > r) = false := by
    rw [cumFitness_one]
    exact decide_eq_false h
  have hpred : ((fun i => decide (cumFitness (ch :: rest) (i + 1) > r)) ∘ Nat.succ)
      = (fun i => decide (cumFitness rest (i + 1) > r - ch.fitness)) := by
    funext i
    simp only [Function.comp]
    apply decide_eq_decide.mpr
    rw [show Nat.succ i + 1 = (i + 1) + 1 from rfl, cumFitness_cons]
    constructor <;> intro <;> linarith
  simp only [specRouletteSelect, List.length_cons, List.range_succ_eq_map, List.find?_cons]
  rw [hp0]
  rw [List.find?_map, hpred]
  cases ho : (List.range rest.length).find?
      (fun i => decide (cumFitness rest (i + 1) > r - ch.fitness)) with
  | none =>
    simp only [ho, Option.map_none]
    cases rest with
    | nil => exact absurd rfl hne
    | cons c2 t => simp [List.getLast?_cons_cons]
  | some i =>
    simp only [ho, Option.map_some]
    simp [Nat.succ_eq_add_one, List.getElem?_cons_succ]

/-- The source's accumulating walk (with last-element fallback) computes
exactly the spec-side first-cumulative-excess selection. -/
lemma selectionRouletteOne_eq_spec (l : List Chromosome) :
    ∀ r : ℚ, selectionRouletteOne l r = specRouletteSelect l r := by
  induction l with
  | nil => intro r; rfl
  | cons ch rest ih =>
    intro r
    by_cases h : ch.fitness > r
    · have hwalk : rouletteWalk (ch :: rest) 0 r = some ch := by
        simp only [rouletteWalk]
        rw [if_pos (by simpa using h)]
      have hp0 : decide (cumFitness (ch :: rest) (0 + 1) > r) = true := by
        rw [cumFitness_one]
        exact decide_eq_true h
      simp only [selectionRouletteOne, hwalk, specRouletteSelect, List.length_cons,
        List.range_succ_eq_map, List.find?_cons]
      rw [hp0]
      simp
    · have hwalk : rouletteWalk (ch :: rest) 0 r = rouletteWalk rest 0 (r - ch.fitness) := by
        simp only [rouletteWalk]
        rw [if_neg (by simpa using h)]
        rw [rouletteWalk_shift rest (0 + ch.fitness) r]
        ring_nf
      have hp0 : decide (cumFitness (ch :: rest) (0 + 1) > r) = false := by
        rw [cumFitness_one]
        exact decide_eq_false h
      cases hrest : rest with
      | nil =>
        subst hrest
        simp only [selectionRouletteOne, rouletteWalk, specRouletteSelect,
          List.length_cons, List.length_nil, List.range_succ_eq_map, List.range_zero,
          List.map_nil, List.find?_cons]
        rw [hp0, if_neg (show ¬ ((0 : ℚ) + ch.fitness > r) by simpa using h)]
        rfl
      | cons c2 t =>
        rw [← hrest]
        have hne : rest ≠ [] := by rw [hrest]; exact List.cons_ne_nil c2 t
        rw [specRouletteSelect_cons ch rest r h hne]
        rw [← ih (r - ch.fitness)]
        simp only [selectionRouletteOne, hwalk]
        cases hw : rouletteWalk rest 0 (r - ch.fitness) with
        | some c => rfl
        | none =>
          simp only []
          rw [hrest]
          rw [List.getLast?_cons_cons]

/-- C6: each roulette draw selects the first individual (in population
order) whose cumulative fitness strictly exceeds the drawn `r`, falling
back to the last individual when no prefix sum exceeds `r`; consequently a
one-element population yields that element as both parents for any draws
(hence for any `totalFitness` range they were drawn from). -/
theorem selection_roulette_spec :
    (∀ (l : List Chromosome) (r : ℚ), selectionRouletteOne l r = specRouletteSelect l r) ∧
      (∀ (ch : Chromosome) (r1 r2 : ℚ),
        selection_roulette [ch] r1 r2 = (some ch, some ch)) := by
  constructor
  · exact fun l => selectionRouletteOne_eq_spec l
  · intro ch r1 r2
    have hone : ∀ r : ℚ, selectionRouletteOne [ch] r = some ch := by
      intro r
      simp only [selectionRouletteOne, rouletteWalk]
      by_cases h : 0 + ch.fitness > r
      · rw [if_pos h]
      · rw [if_neg h]
        rfl
    simp [selection_roulette, hone]

end TreasureSearch
